/-
Verification of the fingerprinting/matching engine of tair-dejavu
(src/dejavu/__init__.py) against its natural-language specification.

The Python code is shallowly embedded: votes are `(song_id, offset_delta)`
pairs over `Int`, the nested dict `diff_counter` becomes a function
`Int → Int → Nat`, the insertion-ordered dict `largest_matches` becomes an
association list, store rows become explicit structures and the store's
mutations become an explicit event log.  Fractional arithmetic (`round(x, 5)`
and the `count / largest_count >= 0.1` test) is modelled exactly over `ℚ`.
-/
import Mathlib

set_option maxHeartbeats 1000000

/-- A song record as returned by the store's `get_song_by_id`; the engine
reads the four fields with `dict.get(key, None)`, hence the `Option`s. -/
structure Song where
  song_name : Option String
  song_duration : Option String
  creative_id : Option String
  file_sha1 : Option String
deriving DecidableEq, Repr

/-- A fallback entry appended to `accepted_fallbacks` by `align_matches`
(lines 196-204 of the source); note it carries no integer offset field,
only `offset_seconds`. -/
structure FallbackMatch where
  song_id : Int
  song_name : Option String
  song_duration : Option String
  creative_id : Option String
  confidence : Nat
  offset_seconds : ℚ
  file_sha1 : Option String
deriving DecidableEq, Repr

/-- The dictionary `align_matches` returns on success (lines 172-181, 206). -/
structure MatchRecord where
  song_id : Int
  song_name : Option String
  song_duration : Option String
  creative_id : Option String
  confidence : Nat
  offset : Int
  offset_seconds : ℚ
  file_sha1 : Option String
  fallback_matches : List FallbackMatch
deriving DecidableEq, Repr

/-- Outcome of a call to `align_matches`: Python `None` (`noMatch`), an
uncaught exception (`raised`, from `None.get(...)` on a missing fallback
song), or the returned dictionary. -/
inductive AlignResult where
  | noMatch : AlignResult
  | raised : AlignResult
  | matched : MatchRecord → AlignResult
deriving DecidableEq, Repr

/-- State of the vote loop of `align_matches` (lines 135-156): the nested
counter `diff_counter[diff][sid]`, the running global best
`(largest, largest_count, song_id)`, and the insertion-ordered dict
`largest_matches : sid ↦ (count, diff)` kept as an association list. -/
structure AlignState where
  diff_counter : Int → Int → Nat
  largest : Int
  largest_count : Nat
  song_id : Int
  largest_matches : List (Int × Nat × Int)

/-- Python-dict insertion: overwrite in place if the key is present,
append otherwise (preserves insertion order, as `dict` iteration does). -/
def dictInsert (l : List (Int × Nat × Int)) (k : Int) (v : Nat × Int) :
    List (Int × Nat × Int) :=
  if l.any (fun p => p.1 = k) then
    l.map (fun p => if p.1 = k then (k, v) else p)
  else
    l ++ [(k, v)]

/-- Lookup in the association-list model of a Python dict. -/
def dictGet (l : List (Int × Nat × Int)) (k : Int) : Option (Nat × Int) :=
  (l.find? (fun p => p.1 = k)).map (fun p => p.2)

/-- Initial loop state (lines 135-139 of the source). -/
def align_init : AlignState :=
  { diff_counter := fun _ _ => 0
    largest := 0
    largest_count := 0
    song_id := -1
    largest_matches := [] }

/-- One iteration of the vote loop of `align_matches` (lines 141-156):
increment `diff_counter[diff][sid]` and, when the new cell count strictly
exceeds `largest_count`, install the cell as the new global best and
overwrite `largest_matches[sid]`. -/
def align_step (st : AlignState) (v : Int × Int) : AlignState :=
  if st.largest_count < st.diff_counter v.2 v.1 + 1 then
    { diff_counter := fun d s =>
        if d = v.2 ∧ s = v.1 then st.diff_counter v.2 v.1 + 1
        else st.diff_counter d s
      largest := v.2
      largest_count := st.diff_counter v.2 v.1 + 1
      song_id := v.1
      largest_matches :=
        dictInsert st.largest_matches v.1 (st.diff_counter v.2 v.1 + 1, v.2) }
  else
    { st with diff_counter := fun d s =>
        if d = v.2 ∧ s = v.1 then st.diff_counter v.2 v.1 + 1
        else st.diff_counter d s }

/-- The state after folding the whole vote list. -/
def align_state (votes : List (Int × Int)) : AlignState :=
  votes.foldl align_step align_init

/-- Number of votes cast for the histogram cell `(sid, diff)`. -/
def countIn (vs : List (Int × Int)) (sid diff : Int) : Nat :=
  (vs.filter (fun v => v.1 = sid ∧ v.2 = diff)).length

/-- The best vote count that song `sid` attains over all offset cells
(the per-song maximum the spec asks `largest_matches` to record). -/
def perSongBest (vs : List (Int × Int)) (sid : Int) : Nat :=
  (vs.map (fun v => if v.1 = sid then countIn vs sid v.2 else 0)).foldr max 0

/-- Modelled from the spec: `fingerprint.DEFAULT_FS` lives in the
`dejavu.fingerprint` module, which is not part of the sources; §6 fixes the
default sample rate at 44100 Hz. -/
def DEFAULT_FS : ℚ := 44100

/-- Modelled from the spec: `fingerprint.DEFAULT_WINDOW_SIZE` lives in the
`dejavu.fingerprint` module, which is not part of the sources; §6 fixes the
window size at 4096 samples. -/
def DEFAULT_WINDOW_SIZE : ℚ := 4096

/-- Modelled from the spec: `fingerprint.DEFAULT_OVERLAP_RATIO` lives in the
`dejavu.fingerprint` module, which is not part of the sources; §6 fixes the
overlap ratio at 0.5. -/
def DEFAULT_OVERLAP : ℚ := 1 / 2

/-- Python `round(x, 5)`: round to 5 decimal places (over exact rationals;
the half-way rule is irrelevant to the claims proved here because the same
`round5` is applied on both sides). -/
def round5 (q : ℚ) : ℚ := (round (q * 100000) : ℤ) / 100000

/-- The seconds formula the source computes on lines 169-171 and 190-192:
`round(float(diff) / DEFAULT_FS * DEFAULT_WINDOW_SIZE * DEFAULT_OVERLAP_RATIO, 5)`. -/
def nsecondsOf (diff : Int) : ℚ :=
  round5 ((diff : ℚ) / DEFAULT_FS * DEFAULT_WINDOW_SIZE * DEFAULT_OVERLAP)

/-- Modelled from the spec: §4.1 defines `Hop = W · (1 − overlap_ratio)`,
rounded to an integer. -/
def specHop : ℤ := round (DEFAULT_WINDOW_SIZE * (1 - DEFAULT_OVERLAP))

/-- Modelled from the spec: §4.4 defines
`offset_seconds = offset · Hop / Fs`, rounded to 5 decimal places. -/
def specOffsetSeconds (offset : Int) : ℚ :=
  round5 ((offset : ℚ) * (specHop : ℚ) / DEFAULT_FS)

/-- The fallback loop of `align_matches` (lines 184-204): walk the
insertion-ordered `largest_matches` table; a key is accepted when its
recorded count is at least 10% of `largest_count` and it is not the winner;
for an accepted key the code calls `get_song_by_id` and dereferences the
result with `.get`, so a `None` record raises (modelled as `Except.error`). -/
def build_fallbacks (db : Int → Option Song) (largest_count : Nat)
    (song_id : Int) : List (Int × Nat × Int) → Except Unit (List FallbackMatch)
  | [] => Except.ok []
  | (key, cnt, diff) :: rest =>
    if (1 : ℚ) / 10 ≤ (cnt : ℚ) / (largest_count : ℚ) ∧ song_id ≠ key then
      match db key with
      | none => Except.error ()
      | some s =>
        match build_fallbacks db largest_count song_id rest with
        | Except.error e => Except.error e
        | Except.ok l =>
          Except.ok ({ song_id := key
                       song_name := s.song_name
                       song_duration := s.song_duration
                       creative_id := s.creative_id
                       confidence := cnt
                       offset_seconds := nsecondsOf diff
                       file_sha1 := s.file_sha1 } :: l)
    else
      build_fallbacks db largest_count song_id rest

/-- `Dejavu.align_matches` (lines 127-208), with the store abstracted as the
function `db` behind `get_song_by_id`: fold the votes, look up the winner
(`None` ⇒ return `None`), assemble the result dictionary and the fallback
list. -/
def align_matches (db : Int → Option Song) (votes : List (Int × Int)) :
    AlignResult :=
  let st := align_state votes
  match db st.song_id with
  | none => AlignResult.noMatch
  | some song =>
    match build_fallbacks db st.largest_count st.song_id st.largest_matches with
    | Except.error _ => AlignResult.raised
    | Except.ok fallbacks =>
      AlignResult.matched
        { song_id := st.song_id
          song_name := song.song_name
          song_duration := song.song_duration
          creative_id := song.creative_id
          confidence := st.largest_count
          offset := st.largest
          offset_seconds := nsecondsOf st.largest
          file_sha1 := song.file_sha1
          fallback_matches := fallbacks }

/-- Projection used to state facts about the fallback list of a result:
the `song_id`s of the fallbacks, `none` when no dictionary was returned. -/
def fallbackIds : AlignResult → Option (List Int)
  | AlignResult.matched r => some (r.fallback_matches.map (fun f => f.song_id))
  | _ => none

/-- A decoded PCM channel (`decoder.read` returns a list of these). -/
abbrev Channel := List Int

/-- A fingerprint hash token paired with its time offset, as produced by
`fingerprint.fingerprint` and stored by `insert_hashes`. -/
abbrev Hsh := String × Nat

/-- One call the engine makes against the store, recorded as an event so
that ordering properties can be stated. -/
inductive DBOp where
  | insertSong : String → String → Option String → Option String → DBOp
  | insertHashes : Int → Finset Hsh → DBOp
  | setFingerprinted : Int → DBOp
deriving DecidableEq

/-- The store as the engine observes it: a fresh-id counter, the song table
(`song_id ↦ file_sha1`, the only column `get_fingerprinted_songs` reads),
and the event log of every mutating call. -/
structure DBState where
  nextSid : Int
  songs : List (Int × String)
  log : List DBOp
deriving DecidableEq

/-- `db.insert_song`: returns the fresh `song_id`. -/
def dbInsertSong (db : DBState) (name fileHash : String)
    (duration creative : Option String) : Int × DBState :=
  (db.nextSid,
   { nextSid := db.nextSid + 1
     songs := db.songs ++ [(db.nextSid, fileHash)]
     log := db.log ++ [DBOp.insertSong name fileHash duration creative] })

/-- `db.insert_hashes`. -/
def dbInsertHashes (db : DBState) (sid : Int) (hs : Finset Hsh) : DBState :=
  { db with log := db.log ++ [DBOp.insertHashes sid hs] }

/-- `db.set_song_fingerprinted`. -/
def dbSetFingerprinted (db : DBState) (sid : Int) : DBState :=
  { db with log := db.log ++ [DBOp.setFingerprinted sid] }

/-- The `Dejavu` driver state: the store plus the cached `songhashes_set`
of content hashes of already-fingerprinted files. -/
structure EngineState where
  db : DBState
  songhashes : List String
deriving DecidableEq

/-- An input audio file as the decoder presents it: `path_to_songname` /
`splitext(basename(...))` give `basename`, `unique_hash` gives `fileHash`,
`decoder.read` gives the channel list, and `soundfile` gives the duration
string computed on line 106. -/
structure FileInfo where
  basename : String
  fileHash : String
  channels : List Channel
  duration : String
deriving DecidableEq

/-- `_fingerprint_worker` (lines 215-239) with `fingerprint.fingerprint`
abstracted as the deterministic per-channel function `fp`: fingerprint each
channel and union the hash sets (`result |= set(hashes)`); return
`(song_name, result, file_hash)`. -/
def fingerprint_worker (fp : Channel → List Hsh) (f : FileInfo)
    (song_name : Option String) : String × Finset Hsh × String :=
  (song_name.getD f.basename,
   f.channels.foldl (fun acc ch => acc ∪ (fp ch).toFinset) ∅,
   f.fileHash)

/-- `get_fingerprinted_songs`: rebuild `songhashes_set` from the song table. -/
def refreshHashes (db : DBState) : List String :=
  db.songs.map (fun p => p.2)

/-- The ingest step shared by the directory loop (lines 90-94) and
`fingerprint_file` (lines 117-121): `insert_song`, `insert_hashes`,
`set_song_fingerprinted`, then `get_fingerprinted_songs`. -/
def ingest_result (st : EngineState) (res : String × Finset Hsh × String)
    (duration creative : Option String) : EngineState :=
  let p := dbInsertSong st.db res.1 res.2.2 duration creative
  let db2 := dbInsertHashes p.2 p.1 res.2.1
  let db3 := dbSetFingerprinted db2 p.1
  { db := db3, songhashes := refreshHashes db3 }

/-- The filtering loop of `fingerprint_directory` (lines 59-67): drop every
file whose content hash is already in `songhashes_set` (the code prints
"... already fingerprinted, continuing..." and `continue`s). -/
def filenames_to_fingerprint (files : List FileInfo) (hashset : List String) :
    List FileInfo :=
  files.filter (fun f => f.fileHash ∉ hashset)

/-- `fingerprint_directory` (lines 48-97): filter out already-fingerprinted
files, run the worker on each survivor and ingest each result.  The pool's
`imap_unordered` completion order is modelled as list order; per-file worker
failures (decode errors of the external decoder) are not modelled. -/
def fingerprint_directory (fp : Channel → List Hsh) (st : EngineState)
    (files : List FileInfo) : EngineState :=
  (filenames_to_fingerprint files st.songhashes).foldl
    (fun s f => ingest_result s (fingerprint_worker fp f none) none none) st

/-- `fingerprint_file` (lines 99-121): raise
`"%s already fingerprinted." % song_name` when the content hash is already
known (before touching the store), otherwise run the worker and ingest,
passing the duration string and `creative_id` to `insert_song`. -/
def fingerprint_file (fp : Channel → List Hsh) (st : EngineState)
    (f : FileInfo) (song_name creative_id : Option String) :
    Except String EngineState :=
  let sname := song_name.getD f.basename
  if f.fileHash ∈ st.songhashes then
    Except.error (sname ++ " already fingerprinted.")
  else
    Except.ok (ingest_result st (fingerprint_worker fp f (some sname))
      (some f.duration) creative_id)

/-- The ordering property of §5: every `set_song_fingerprinted(sid)` call in
the store log is preceded by the `insert_hashes(sid, ...)` call carrying the
song's hashes. -/
def HashesBeforeFlag (log : List DBOp) : Prop :=
  ∀ (j : Nat) (sid : Int), log[j]? = some (DBOp.setFingerprinted sid) →
    ∃ (i : Nat) (hs : Finset Hsh),
      i < j ∧ log[i]? = some (DBOp.insertHashes sid hs)

/-- A concrete song record used in concrete-input theorems. -/
def songA : Song :=
  { song_name := some "A", song_duration := none, creative_id := none,
    file_sha1 := some "sha-a" }

/-- A store holding songs 1 and 2. -/
def dbBoth : Int → Option Song :=
  fun i => if i = 1 ∨ i = 2 then some songA else none

/-- A store holding only song 1. -/
def dbOnly1 : Int → Option Song :=
  fun i => if i = 1 then some songA else none

/-- Vote list on which song 1's `largest_matches` entry goes stale: song 1
first reaches the global maximum with 2 votes at offset 0, song 2 then
raises the global maximum to 4, after which song 1 gathers 3 votes at
offset 9 without ever beating 4. -/
def votesC1 : List (Int × Int) :=
  [(1, 0), (1, 0), (2, 5), (2, 5), (2, 5), (2, 5), (1, 9), (1, 9), (1, 9)]

/-- Vote list where song 2 polls 1 vote (≥ 10% of the winner's 3) but never
sets a new global maximum, so it never enters `largest_matches`. -/
def votesC2 : List (Int × Int) := [(1, 0), (1, 0), (1, 0), (2, 5)]

/-- A one-vote query for song 1 at offset 0. -/
def votesC6 : List (Int × Int) := [(1, 0)]

/-- Vote list whose `largest_matches` holds song 2 (count 1, offset 3) as a
qualifying fallback and song 1 (count 2, offset 0) as the winner. -/
def votesC10 : List (Int × Int) := [(2, 3), (1, 0), (1, 0)]

/-- The record `align_matches dbOnly1 votesC6` returns. -/
def recC6 : MatchRecord :=
  { song_id := 1, song_name := some "A", song_duration := none,
    creative_id := none, confidence := 1, offset := 0,
    offset_seconds := nsecondsOf 0, file_sha1 := some "sha-a",
    fallback_matches := [] }

/-- A trivial per-channel fingerprint function for concrete-input theorems. -/
def fp0 : Channel → List Hsh := fun ch => [("h", ch.length)]

/-- A fresh input file. -/
def fileA : FileInfo :=
  { basename := "a", fileHash := "ha", channels := [[1, 2]], duration := "3.0" }

/-- A stereo file whose two channels are identical. -/
def fileStereo : FileInfo :=
  { basename := "s", fileHash := "hs", channels := [[5], [5]], duration := "1.0" }

/-- An empty engine state. -/
def st0 : EngineState :=
  { db := { nextSid := 0, songs := [], log := [] }, songhashes := [] }

/-- An engine state that has already fingerprinted `fileA` (its content hash
is cached in `songhashes_set`). -/
def stDup : EngineState :=
  { db := { nextSid := 1, songs := [(0, "ha")], log := [] },
    songhashes := ["ha"] }

/-- The invariant the vote loop maintains: `diff_counter` holds the exact
histogram of the processed votes, `largest_count` bounds every cell, and
the current `(song_id, largest)` cell attains `largest_count`. -/
def AlignInv (vs : List (Int × Int)) (st : AlignState) : Prop :=
  (∀ d s : Int, st.diff_counter d s = countIn vs s d) ∧
  (∀ s d : Int, countIn vs s d ≤ st.largest_count) ∧
  countIn vs st.song_id st.largest = st.largest_count

theorem countIn_append (vs ws : List (Int × Int)) (s d : Int) :
    countIn (vs ++ ws) s d = countIn vs s d + countIn ws s d := by
  simp [countIn, List.filter_append]

theorem countIn_singleton (v : Int × Int) (s d : Int) :
    countIn [v] s d = if v.1 = s ∧ v.2 = d then 1 else 0 := by
  by_cases h : v.1 = s ∧ v.2 = d
  · simp [countIn, h]
  · simp [countIn, h]

theorem align_step_counter (st : AlignState) (v : Int × Int) (d s : Int) :
    (align_step st v).diff_counter d s =
      if d = v.2 ∧ s = v.1 then st.diff_counter v.2 v.1 + 1
      else st.diff_counter d s := by
  by_cases hlt : st.largest_count < st.diff_counter v.2 v.1 + 1
  · unfold align_step
    rw [if_pos hlt]
  · unfold align_step
    rw [if_neg hlt]

theorem align_step_largest_count (st : AlignState) (v : Int × Int) :
    (align_step st v).largest_count =
      max st.largest_count (st.diff_counter v.2 v.1 + 1) := by
  by_cases hlt : st.largest_count < st.diff_counter v.2 v.1 + 1
  · unfold align_step
    rw [if_pos hlt]
    exact (Nat.max_eq_right (Nat.le_of_lt hlt)).symm
  · unfold align_step
    rw [if_neg hlt]
    exact (Nat.max_eq_left (Nat.le_of_not_lt hlt)).symm

theorem align_step_winner_of_not_lt (st : AlignState) (v : Int × Int)
    (h : ¬ st.largest_count < st.diff_counter v.2 v.1 + 1) :
    (align_step st v).song_id = st.song_id ∧
      (align_step st v).largest = st.largest ∧
      (align_step st v).largest_matches = st.largest_matches := by
  unfold align_step
  rw [if_neg h]
  exact ⟨rfl, rfl, rfl⟩

theorem align_step_winner_of_lt (st : AlignState) (v : Int × Int)
    (h : st.largest_count < st.diff_counter v.2 v.1 + 1) :
    (align_step st v).song_id = v.1 ∧
      (align_step st v).largest = v.2 ∧
      (align_step st v).largest_count = st.diff_counter v.2 v.1 + 1 := by
  unfold align_step
  rw [if_pos h]
  exact ⟨rfl, rfl, rfl⟩

theorem align_state_append (vs ws : List (Int × Int)) :
    align_state (vs ++ ws) = ws.foldl align_step (align_state vs) := by
  simp [align_state, List.foldl_append]

theorem align_state_snoc (vs : List (Int × Int)) (v : Int × Int) :
    align_state (vs ++ [v]) = align_step (align_state vs) v := by
  simp [align_state_append]

theorem align_inv_step (vs : List (Int × Int)) (v : Int × Int)
    (st : AlignState) (h : AlignInv vs st) :
    AlignInv (vs ++ [v]) (align_step st v) := by
  obtain ⟨hc, hb, hw⟩ := h
  have hcount : ∀ s d : Int,
      countIn (vs ++ [v]) s d =
        countIn vs s d + (if v.1 = s ∧ v.2 = d then 1 else 0) := by
    intro s d
    rw [countIn_append, countIn_singleton]
  refine ⟨?_, ?_, ?_⟩
  · intro d s
    rw [align_step_counter, hcount, hc, hc]
    by_cases hds : d = v.2 ∧ s = v.1
    · obtain ⟨h1, h2⟩ := hds
      simp [h1, h2]
    · rw [if_neg hds, if_neg]
      · omega
      · intro hh
        exact hds ⟨hh.2.symm, hh.1.symm⟩
  · intro s d
    rw [align_step_largest_count, hcount]
    have h1 := hb s d
    have h2 := hc v.2 v.1
    by_cases hds : v.1 = s ∧ v.2 = d
    · obtain ⟨h3, h4⟩ := hds
      subst h3
      subst h4
      rw [if_pos ⟨rfl, rfl⟩]
      omega
    · rw [if_neg hds]
      omega
  · by_cases hlt : st.largest_count < st.diff_counter v.2 v.1 + 1
    · obtain ⟨h1, h2, h3⟩ := align_step_winner_of_lt st v hlt
      rw [h1, h2, h3, hcount, if_pos ⟨rfl, rfl⟩, hc]
    · obtain ⟨h1, h2, _⟩ := align_step_winner_of_not_lt st v hlt
      have h4 : (align_step st v).largest_count = st.largest_count := by
        rw [align_step_largest_count]
        exact Nat.max_eq_left (Nat.le_of_not_lt hlt)
      rw [h1, h2, h4, hcount]
      have hne : ¬ (v.1 = st.song_id ∧ v.2 = st.largest) := by
        intro hh
        rw [hc] at hlt
        rw [hh.1, hh.2] at hlt
        omega
      rw [if_neg hne, hw]
      omega

theorem align_inv_holds (vs : List (Int × Int)) :
    AlignInv vs (align_state vs) := by
  induction vs using List.reverseRecOn with
  | nil =>
    refine ⟨?_, ?_, ?_⟩ <;> simp [align_state, align_init, countIn]
  | append_singleton vs v ih =>
    rw [align_state_snoc]
    exact align_inv_step vs v _ ih

theorem align_lc_mono (vs ws : List (Int × Int)) :
    (align_state vs).largest_count ≤ (align_state (vs ++ ws)).largest_count := by
  induction ws using List.reverseRecOn with
  | nil => simp
  | append_singleton ws w ih =>
    rw [← List.append_assoc, align_state_snoc, align_step_largest_count]
    exact le_trans ih (Nat.le_max_left _ _)

theorem align_winner_stable (vs ws : List (Int × Int))
    (h : (align_state (vs ++ ws)).largest_count = (align_state vs).largest_count) :
    (align_state (vs ++ ws)).song_id = (align_state vs).song_id ∧
      (align_state (vs ++ ws)).largest = (align_state vs).largest := by
  induction ws using List.reverseRecOn with
  | nil => simp
  | append_singleton ws w ih =>
    rw [← List.append_assoc, align_state_snoc] at h ⊢
    have h1 := align_lc_mono vs ws
    have h2 := align_step_largest_count (align_state (vs ++ ws)) w
    by_cases hlt : (align_state (vs ++ ws)).largest_count <
        (align_state (vs ++ ws)).diff_counter w.2 w.1 + 1
    · exfalso
      rw [h2, Nat.max_eq_right (Nat.le_of_lt hlt)] at h
      omega
    · obtain ⟨h3, h4, _⟩ := align_step_winner_of_not_lt _ w hlt
      have h5 : (align_state (vs ++ ws)).largest_count =
          (align_state vs).largest_count := by
        rw [h2, Nat.max_eq_left (Nat.le_of_not_lt hlt)] at h
        exact h
      obtain ⟨h6, h7⟩ := ih h5
      exact ⟨h3.trans h6, h4.trans h7⟩

theorem align_first_to_reach_max (vs : List (Int × Int)) (i : Nat) (s d : Int)
    (h : countIn (vs.take i) s d = (align_state vs).largest_count) :
    countIn (vs.take i) (align_state vs).song_id (align_state vs).largest
      = (align_state vs).largest_count := by
  have hsplit : vs.take i ++ vs.drop i = vs := List.take_append_drop i vs
  obtain ⟨_, hb, hw⟩ := align_inv_holds (vs.take i)
  have h1 : countIn (vs.take i) s d ≤ (align_state (vs.take i)).largest_count :=
    hb s d
  have h2 : (align_state (vs.take i)).largest_count ≤
      (align_state vs).largest_count := by
    conv_rhs => rw [← hsplit]
    exact align_lc_mono (vs.take i) (vs.drop i)
  have heq : (align_state (vs.take i)).largest_count =
      (align_state vs).largest_count := by omega
  have hstable := align_winner_stable (vs.take i) (vs.drop i)
    (by rw [hsplit, heq])
  rw [hsplit] at hstable
  obtain ⟨h3, h4⟩ := hstable
  rw [h3, h4, hw, heq]

theorem align_matches_matched_inv (db : Int → Option Song)
    (vs : List (Int × Int)) (r : MatchRecord)
    (h : align_matches db vs = AlignResult.matched r) :
    ∃ (song : Song) (fbs : List FallbackMatch),
      db (align_state vs).song_id = some song ∧
      build_fallbacks db (align_state vs).largest_count
        (align_state vs).song_id (align_state vs).largest_matches =
          Except.ok fbs ∧
      r = { song_id := (align_state vs).song_id
            song_name := song.song_name
            song_duration := song.song_duration
            creative_id := song.creative_id
            confidence := (align_state vs).largest_count
            offset := (align_state vs).largest
            offset_seconds := nsecondsOf (align_state vs).largest
            file_sha1 := song.file_sha1
            fallback_matches := fbs } := by
  simp only [align_matches] at h
  split at h
  · exact absurd h (by simp)
  · next song hdb =>
    split at h
    · exact absurd h (by simp)
    · next fbs hfb =>
      injection h with h2
      exact ⟨song, fbs, hdb, hfb, h2.symm⟩

theorem build_fallbacks_ok_mem (db : Int → Option Song) (lc : Nat) (w : Int) :
    ∀ (l : List (Int × Nat × Int)) (fbs : List FallbackMatch),
      build_fallbacks db lc w l = Except.ok fbs →
      ∀ fb ∈ fbs, ∃ (cnt : Nat) (diff : Int) (s : Song),
        (fb.song_id, cnt, diff) ∈ l ∧ db fb.song_id = some s ∧
        fb.confidence = cnt ∧ fb.offset_seconds = nsecondsOf diff := by
  intro l
  induction l with
  | nil =>
    intro fbs h fb hfb
    simp only [build_fallbacks] at h
    injection h with h2
    rw [← h2] at hfb
    exact absurd hfb (by simp)
  | cons p rest ih =>
    obtain ⟨key, cnt, diff⟩ := p
    intro fbs h fb hfb
    simp only [build_fallbacks] at h
    split at h
    · next hacc =>
      cases hdb : db key with
      | none =>
        rw [hdb] at h
        exact absurd h (by simp)
      | some s =>
        rw [hdb] at h
        cases hrec : build_fallbacks db lc w rest with
        | error e =>
          rw [hrec] at h
          exact absurd h (by simp)
        | ok l2 =>
          rw [hrec] at h
          injection h with h2
          rw [← h2] at hfb
          rcases List.mem_cons.mp hfb with hhd | htl
          · subst hhd
            exact ⟨cnt, diff, s, List.mem_cons_self _ _, hdb, rfl, rfl⟩
          · obtain ⟨c2, d2, s2, hmem, hdb2, hc2, hs2⟩ := ih l2 hrec fb htl
            exact ⟨c2, d2, s2, List.mem_cons_of_mem _ hmem, hdb2, hc2, hs2⟩
    · next hacc =>
      obtain ⟨c2, d2, s2, hmem, hdb2, hc2, hs2⟩ := ih fbs h fb hfb
      exact ⟨c2, d2, s2, List.mem_cons_of_mem _ hmem, hdb2, hc2, hs2⟩

theorem build_fallbacks_missing (db : Int → Option Song) (lc : Nat) (w : Int) :
    ∀ (l : List (Int × Nat × Int)) (k : Int) (cnt : Nat) (diff : Int),
      (k, cnt, diff) ∈ l →
      (1 : ℚ) / 10 ≤ (cnt : ℚ) / (lc : ℚ) → w ≠ k → db k = none →
      build_fallbacks db lc w l = Except.error () := by
  intro l
  induction l with
  | nil =>
    intro k cnt diff hmem
    exact absurd hmem (by simp)
  | cons p rest ih =>
    obtain ⟨key, c0, d0⟩ := p
    intro k cnt diff hmem hacc hne hdb
    rcases List.mem_cons.mp hmem with hhd | htl
    · injection hhd with e1 e2
      injection e2 with e2 e3
      subst e1
      subst e2
      subst e3
      simp only [build_fallbacks]
      rw [if_pos ⟨hacc, hne⟩, hdb]
    · simp only [build_fallbacks]
      split
      · next hacc0 =>
        cases hdb0 : db key with
        | none => rfl
        | some s => rw [ih k cnt diff htl hacc hne hdb]
      · next hacc0 =>
        exact ih k cnt diff htl hacc hne hdb

theorem hbf_append_block (l : List DBOp) (n fh : String) (d c : Option String)
    (sid : Int) (hs : Finset Hsh) (h : HashesBeforeFlag l) :
    HashesBeforeFlag (l ++ [DBOp.insertSong n fh d c,
      DBOp.insertHashes sid hs, DBOp.setFingerprinted sid]) := by
  intro j sid2 hj
  by_cases hjl : j < l.length
  · rw [List.getElem?_append_left hjl] at hj
    obtain ⟨i, hs2, hij, hi⟩ := h j sid2 hj
    refine ⟨i, hs2, hij, ?_⟩
    rw [List.getElem?_append_left (lt_trans hij hjl)]
    exact hi
  · push_neg at hjl
    rw [List.getElem?_append_right hjl] at hj
    have hlen : j - l.length < 3 := by
      by_contra hge
      push_neg at hge
      have hnone : ([DBOp.insertSong n fh d c, DBOp.insertHashes sid hs,
          DBOp.setFingerprinted sid] : List DBOp)[j - l.length]? = none := by
        apply List.getElem?_eq_none
        simpa using hge
      rw [hnone] at hj
      exact absurd hj (by simp)
    rcases (by omega : j - l.length = 0 ∨ j - l.length = 1 ∨ j - l.length = 2)
      with h0 | h1 | h2
    · rw [h0] at hj
      exact absurd hj (by simp)
    · rw [h1] at hj
      exact absurd hj (by simp)
    · rw [h2] at hj
      have hsid : sid = sid2 := by
        have := Option.some.inj hj
        injection this
      refine ⟨l.length + 1, hs, by omega, ?_⟩
      rw [List.getElem?_append_right (by omega : l.length ≤ l.length + 1)]
      have hone : l.length + 1 - l.length = 1 := by omega
      rw [hone, hsid]
      rfl

theorem ingest_result_log (st : EngineState) (res : String × Finset Hsh × String)
    (d c : Option String) :
    (ingest_result st res d c).db.log =
      st.db.log ++ [DBOp.insertSong res.1 res.2.2 d c,
        DBOp.insertHashes st.db.nextSid res.2.1,
        DBOp.setFingerprinted st.db.nextSid] := by
  simp [ingest_result, dbInsertSong, dbInsertHashes, dbSetFingerprinted]

theorem hbf_ingest (st : EngineState) (res : String × Finset Hsh × String)
    (d c : Option String) (h : HashesBeforeFlag st.db.log) :
    HashesBeforeFlag (ingest_result st res d c).db.log := by
  rw [ingest_result_log]
  exact hbf_append_block _ _ _ _ _ _ _ h

theorem hbf_foldl (fp : Channel → List Hsh) :
    ∀ (files : List FileInfo) (st : EngineState), HashesBeforeFlag st.db.log →
      HashesBeforeFlag ((files.foldl
        (fun s f => ingest_result s (fingerprint_worker fp f none) none none)
        st)).db.log := by
  intro files
  induction files with
  | nil => intro st h; exact h
  | cons f rest ih =>
    intro st h
    rw [List.foldl_cons]
    exact ih _ (hbf_ingest st _ none none h)

theorem foldl_union_const (fp : Channel → List Hsh) (c : Channel) :
    ∀ (n : Nat) (acc : Finset Hsh),
      (List.replicate (n + 1) c).foldl (fun a ch => a ∪ (fp ch).toFinset) acc =
        acc ∪ (fp c).toFinset := by
  intro n
  induction n with
  | zero =>
    intro acc
    simp
  | succ n ih =>
    intro acc
    rw [List.replicate_succ, List.foldl_cons, ih (acc ∪ (fp c).toFinset),
      Finset.union_assoc, Finset.union_self]

theorem specHop_val : specHop = 2048 := by
  unfold specHop DEFAULT_WINDOW_SIZE DEFAULT_OVERLAP
  rw [show (4096 : ℚ) * (1 - 1 / 2) = ((2048 : ℤ) : ℚ) by norm_num]
  rw [round_intCast]

theorem nseconds_eq_spec (z : Int) : nsecondsOf z = specOffsetSeconds z := by
  have h1 : (z : ℚ) / DEFAULT_FS * DEFAULT_WINDOW_SIZE * DEFAULT_OVERLAP =
      (z : ℚ) * (specHop : ℚ) / DEFAULT_FS := by
    rw [specHop_val]
    unfold DEFAULT_FS DEFAULT_WINDOW_SIZE DEFAULT_OVERLAP
    push_cast
    ring
  unfold nsecondsOf specOffsetSeconds
  rw [h1]

/-- Claim C1 (the code contradicts it): on `votesC1`, song 1's own best
alignment is 3 votes at offset 9, yet `largest_matches[1]` records `(2, 0)`
— the last time song 1's running count set a new global maximum — so the
per-song table does not hold each voted song's own maximum. -/
theorem largest_matches_entry_stale :
    dictGet (align_state votesC1).largest_matches 1 = some (2, 0) ∧
    perSongBest votesC1 1 = 3 ∧
    countIn votesC1 1 9 = 3 ∧
    (align_state votesC1).song_id = 2 := by decide

/-- Claim C2 (the code contradicts it): on `votesC2` the winner is song 1
with 3 votes and song 2's best per-song count is 1, at least 10% of 3, so
the claim requires song 2 among the fallbacks; the code returns an empty
fallback list because song 2 never entered `largest_matches`. -/
theorem fallbacks_omit_qualifying_song :
    fallbackIds (align_matches dbBoth votesC2) = some [] ∧
    (align_state votesC2).song_id = 1 ∧
    (align_state votesC2).largest_count = 3 ∧
    perSongBest votesC2 2 = 1 ∧
    (1 : ℚ) / 10 ≤ (perSongBest votesC2 2 : ℚ) /
      ((align_state votesC2).largest_count : ℚ) := by
  have h1 : perSongBest votesC2 2 = 1 := by decide
  have h2 : (align_state votesC2).largest_count = 3 := by decide
  refine ⟨?_, by decide, h2, h1, ?_⟩
  · norm_num [align_matches, align_state, align_step, align_init, dictInsert,
      build_fallbacks, dbBoth, votesC2, fallbackIds]
  · rw [h1, h2]
    norm_num

/-- Claim C3 (confirmed): the loop of `align_matches` selects the histogram
cell of strictly largest vote count — the winning cell's count equals
`largest_count`, no cell exceeds it, and among cells attaining the maximum
the winner is the first to reach it in vote order (whenever any cell has
already reached the final maximum within a prefix, so has the winner) —
and the returned dictionary reports that count as `confidence` together
with the winning cell's `song_id` and offset. -/
theorem align_matches_picks_first_max_cell (vs : List (Int × Int)) :
    countIn vs (align_state vs).song_id (align_state vs).largest
        = (align_state vs).largest_count ∧
    (∀ s d : Int, countIn vs s d ≤ (align_state vs).largest_count) ∧
    (∀ (i : Nat) (s d : Int),
        countIn (vs.take i) s d = (align_state vs).largest_count →
        countIn (vs.take i) (align_state vs).song_id (align_state vs).largest
          = (align_state vs).largest_count) ∧
    (∀ (db : Int → Option Song) (r : MatchRecord),
        align_matches db vs = AlignResult.matched r →
        r.confidence = (align_state vs).largest_count ∧
        r.song_id = (align_state vs).song_id ∧
        r.offset = (align_state vs).largest) := by
  obtain ⟨_, hb, hw⟩ := align_inv_holds vs
  refine ⟨hw, hb, align_first_to_reach_max vs, ?_⟩
  intro db r h
  obtain ⟨song, fbs, _, _, hr⟩ := align_matches_matched_inv db vs r h
  subst hr
  exact ⟨rfl, rfl, rfl⟩

/-- Claim C4 (confirmed): with no votes the loop never updates `song_id`
from its sentinel `-1`, so as long as the store has no song with id `-1`
(ids are store-assigned), the lookup fails and the call returns `None`. -/
theorem align_matches_empty_votes (db : Int → Option Song)
    (h : db (-1) = none) : align_matches db [] = AlignResult.noMatch := by
  simp [align_matches, align_state, align_init, h]

theorem align_matches_empty_votes_witness :
    align_matches (fun _ => none) [] = AlignResult.noMatch :=
  align_matches_empty_votes (fun _ => none) rfl

/-- Claim C5 (confirmed): when `get_song_by_id` yields no record for the
winning `song_id`, `align_matches` returns `None` (line 166) rather than a
partial record. -/
theorem align_matches_missing_winner (db : Int → Option Song)
    (vs : List (Int × Int)) (h : db (align_state vs).song_id = none) :
    align_matches db vs = AlignResult.noMatch := by
  simp only [align_matches]
  rw [h]

theorem align_matches_missing_winner_witness :
    align_matches (fun _ => none) [(3, 4)] = AlignResult.noMatch :=
  align_matches_missing_winner (fun _ => none) [(3, 4)] rfl

/-- Claim C6 (confirmed): the winner's `offset_seconds` equals
`offset · Hop / Fs` rounded to 5 decimals with `Hop = W · (1 − overlap)`
(the source's `offset / Fs · W · overlap` coincides because overlap = 1/2),
and every fallback's `offset_seconds` is the same formula applied to its
recorded offset, with its recorded count as confidence. -/
theorem align_offset_seconds_spec (db : Int → Option Song)
    (vs : List (Int × Int)) (r : MatchRecord)
    (h : align_matches db vs = AlignResult.matched r) :
    r.offset_seconds = specOffsetSeconds r.offset ∧
    ∀ fb ∈ r.fallback_matches, ∃ (cnt : Nat) (d : Int),
      (fb.song_id, cnt, d) ∈ (align_state vs).largest_matches ∧
      fb.confidence = cnt ∧ fb.offset_seconds = specOffsetSeconds d := by
  obtain ⟨song, fbs, hdb, hfb, hr⟩ := align_matches_matched_inv db vs r h
  subst hr
  constructor
  · exact nseconds_eq_spec _
  · intro fb hmem
    obtain ⟨cnt, d, s, hmemL, _, hconf, hsec⟩ :=
      build_fallbacks_ok_mem db _ _ _ fbs hfb fb hmem
    exact ⟨cnt, d, hmemL, hconf, hsec.trans (nseconds_eq_spec d)⟩

theorem align_offset_seconds_spec_witness :
    recC6.offset_seconds = specOffsetSeconds recC6.offset ∧
    ∀ fb ∈ recC6.fallback_matches, ∃ (cnt : Nat) (d : Int),
      (fb.song_id, cnt, d) ∈ (align_state votesC6).largest_matches ∧
      fb.confidence = cnt ∧ fb.offset_seconds = specOffsetSeconds d :=
  align_offset_seconds_spec dbOnly1 votesC6 recC6 (by
    norm_num [align_matches, align_state, align_step, align_init, dictInsert,
      build_fallbacks, dbOnly1, votesC6, recC6, songA])

/-- Claim C10 (confirmed): the fallback loop dereferences
`get_song_by_id(key)` without a guard, so whenever `largest_matches` holds
an accepted fallback key (count ≥ 10% of the winner, not the winner) whose
store lookup yields no record, the call raises instead of returning `None`
or omitting that fallback. -/
theorem align_missing_fallback_raises (db : Int → Option Song)
    (vs : List (Int × Int)) (s : Song) (k : Int) (cnt : Nat) (d : Int)
    (h1 : db (align_state vs).song_id = some s)
    (h2 : (k, cnt, d) ∈ (align_state vs).largest_matches)
    (h3 : (1 : ℚ) / 10 ≤ (cnt : ℚ) / ((align_state vs).largest_count : ℚ))
    (h4 : (align_state vs).song_id ≠ k)
    (h5 : db k = none) :
    align_matches db vs = AlignResult.raised := by
  simp only [align_matches]
  rw [h1, build_fallbacks_missing db _ _ _ k cnt d h2 h3 h4 h5]

theorem align_missing_fallback_raises_witness :
    align_matches dbOnly1 votesC10 = AlignResult.raised :=
  align_missing_fallback_raises dbOnly1 votesC10 songA 2 1 3
    (by decide)
    (by decide)
    (by
      have h : (align_state votesC10).largest_count = 2 := by decide
      rw [h]
      norm_num)
    (by decide)
    rfl



/-- Claim C7 (confirmed): a file whose content hash is already cached is
dropped by the directory filter with a notice (prepending it changes
nothing, so the store receives no call for it), and `fingerprint_file`
raises `"%s already fingerprinted."` before touching the store (the store
is mutated only on the `Except.ok` path). -/
theorem duplicate_ingest_skipped (fp : Channel → List Hsh) (st : EngineState)
    (f : FileInfo) (files : List FileInfo) (sn cr : Option String)
    (h : f.fileHash ∈ st.songhashes) :
    f ∉ filenames_to_fingerprint files st.songhashes ∧
    fingerprint_directory fp st (f :: files) = fingerprint_directory fp st files ∧
    fingerprint_file fp st f sn cr =
      Except.error (sn.getD f.basename ++ " already fingerprinted.") := by
  refine ⟨?_, ?_, ?_⟩
  · intro hmem
    have h2 := (List.mem_filter.mp hmem).2
    simp only [decide_eq_true_eq] at h2
    exact h2 h
  · unfold fingerprint_directory filenames_to_fingerprint
    rw [List.filter_cons]
    simp [h]
  · unfold fingerprint_file
    rw [if_pos h]

theorem duplicate_ingest_skipped_witness :
    fileA ∉ filenames_to_fingerprint [] stDup.songhashes ∧
    fingerprint_directory fp0 stDup [fileA] = fingerprint_directory fp0 stDup [] ∧
    fingerprint_file fp0 stDup fileA none none =
      Except.error ("a" ++ " already fingerprinted.") :=
  duplicate_ingest_skipped fp0 stDup fileA [] none none (by decide)

/-- Claim C8 (confirmed): each successful ingest appends exactly
`insert_song`, `insert_hashes` (with the whole hash set) and then
`set_song_fingerprinted` to the store log, so both `fingerprint_directory`
and `fingerprint_file` preserve the property that every
`set_song_fingerprinted(sid)` is preceded by the `insert_hashes(sid, ...)`
call for that song; the flag is never set before the hashes. -/
theorem hashes_inserted_before_flag (fp : Channel → List Hsh)
    (st st2 : EngineState) (files : List FileInfo) (f : FileInfo)
    (sn cr : Option String)
    (h : HashesBeforeFlag st.db.log)
    (h2 : fingerprint_file fp st f sn cr = Except.ok st2) :
    HashesBeforeFlag (fingerprint_directory fp st files).db.log ∧
    st2.db.log = st.db.log ++
      [DBOp.insertSong (sn.getD f.basename) f.fileHash (some f.duration) cr,
       DBOp.insertHashes st.db.nextSid
         (fingerprint_worker fp f (some (sn.getD f.basename))).2.1,
       DBOp.setFingerprinted st.db.nextSid] ∧
    HashesBeforeFlag st2.db.log := by
  refine ⟨?_, ?_, ?_⟩
  · unfold fingerprint_directory
    exact hbf_foldl fp _ st h
  · unfold fingerprint_file at h2
    split at h2
    · exact absurd h2 (by simp)
    · injection h2 with h3
      rw [← h3, ingest_result_log]
      simp [fingerprint_worker]
  · unfold fingerprint_file at h2
    split at h2
    · exact absurd h2 (by simp)
    · injection h2 with h3
      rw [← h3]
      exact hbf_ingest st _ _ _ h

theorem hashes_inserted_before_flag_witness :
    HashesBeforeFlag (fingerprint_directory fp0 st0 [fileA]).db.log ∧
    (ingest_result st0 (fingerprint_worker fp0 fileA (some "a"))
        (some "3.0") none).db.log =
      st0.db.log ++
        [DBOp.insertSong "a" "ha" (some "3.0") none,
         DBOp.insertHashes 0 (fingerprint_worker fp0 fileA (some "a")).2.1,
         DBOp.setFingerprinted 0] ∧
    HashesBeforeFlag (ingest_result st0 (fingerprint_worker fp0 fileA (some "a"))
        (some "3.0") none).db.log :=
  hashes_inserted_before_flag fp0 st0 _ [fileA] fileA none none
    (by intro j sid hj; simp [st0] at hj) rfl

/-- Claim C9 (confirmed): `_fingerprint_worker` combines the channels' hash
lists by set union, so on a file all of whose channels equal `c` the
resulting hash set equals the set for the single mono channel `c` alone
(duplicate hashes across channels appear once). -/
theorem worker_channel_union_idempotent (fp : Channel → List Hsh)
    (f : FileInfo) (c : Channel) (sn : Option String)
    (h1 : f.channels ≠ []) (h2 : ∀ ch ∈ f.channels, ch = c) :
    (fingerprint_worker fp f sn).2.1 = (fp c).toFinset ∧
    (fingerprint_worker fp f sn).2.1 =
      (fingerprint_worker fp
        { basename := f.basename, fileHash := f.fileHash,
          channels := [c], duration := f.duration } sn).2.1 := by
  have hrep : f.channels = List.replicate f.channels.length c :=
    List.eq_replicate_length.mpr h2
  obtain ⟨n, hn⟩ : ∃ n, f.channels.length = n + 1 := by
    cases hc : f.channels with
    | nil => exact absurd hc h1
    | cons x xs => exact ⟨xs.length, by simp [hc]⟩
  have hfold : (fingerprint_worker fp f sn).2.1 = (fp c).toFinset := by
    show f.channels.foldl (fun a ch => a ∪ (fp ch).toFinset) ∅ = _
    rw [hrep, hn, foldl_union_const fp c n ∅, Finset.empty_union]
  refine ⟨hfold, ?_⟩
  rw [hfold]
  simp [fingerprint_worker]

theorem worker_channel_union_idempotent_witness :
    (fingerprint_worker fp0 fileStereo none).2.1 = (fp0 [5]).toFinset ∧
    (fingerprint_worker fp0 fileStereo none).2.1 =
      (fingerprint_worker fp0
        { basename := fileStereo.basename, fileHash := fileStereo.fileHash,
          channels := [[5]], duration := fileStereo.duration } none).2.1 :=
  worker_channel_union_idempotent fp0 fileStereo [5] none (by decide) (by decide)
